import Mathlib

/-!
Verification of the multipart-upload engine in `upload_large_file.py`.

The Python code is shallowly embedded as pure Lean functions.  Network calls
are abstracted as scripted outcomes: each call site consumes the outcome that
a script (a function from attempt number to result) assigns to it, and every
modeled function additionally returns the list of observable events it
performed (store calls, sleeps, the final failure report), so that temporal
claims (waits, retries, never-aborts) become statements about event traces.

Python exceptions are modeled by the `PyErr` type; a function that can raise
returns `Except PyErr`.  Python integers are `Int`.  `math.ceil(a / b)` on
Python ints (computed through float division in the source) is modeled as the
exact rational ceiling `py_ceil_div`; the float division in the source is
exact for every `file_size` below 2^53 bytes, since an integer below 2^53 is
exactly representable as an IEEE double and dividing by the power of two
2^30 only shifts the exponent.
-/

namespace UploadLargeFile

/-- The exceptions the script can observe from `botocore` or raise itself.
`clientError` carries `response.ResponseMetadata.HTTPStatusCode` and
`response.Error.Code`; the `id` fields let distinct raised exceptions be
distinguished, mirroring object identity of Python exception values. -/
inductive PyErr where
  | readTimeoutError (id : Nat)
  | connectTimeoutError (id : Nat)
  | clientError (httpStatusCode : Option Int) (code : Option String) (id : Nat)
  | botoCoreError (id : Nat)
  | runtimeError (msg : String)
  | zeroDivisionError
  | typeError
  | attributeError
deriving DecidableEq

/-- `LargeMultipartUploader.is_insufficient_storage_error`: a `ClientError`
whose response metadata reports HTTP status 507. -/
def is_insufficient_storage_error : PyErr → Bool
  | .clientError s _ _ => s == some 507
  | _ => false

/-- `LargeMultipartUploader.is_524_error`: a `ClientError` whose response
metadata reports HTTP status 524. -/
def is_524_error : PyErr → Bool
  | .clientError s _ _ => s == some 524
  | _ => false

/-- `LargeMultipartUploader.is_no_such_upload_error`: a `ClientError` whose
error code is `NoSuchUpload`. -/
def is_no_such_upload_error : PyErr → Bool
  | .clientError _ c _ => c == some "NoSuchUpload"
  | _ => false

/-- Exceptions matched by `except ClientError`. -/
def is_client_error : PyErr → Bool
  | .clientError _ _ _ => true
  | _ => false

/-- Exceptions matched by `except (ReadTimeoutError, ConnectTimeoutError)`:
a client-observed read or connect timeout. -/
def is_client_timeout : PyErr → Bool
  | .readTimeoutError _ => true
  | .connectTimeoutError _ => true
  | _ => false

/-- Exceptions matched by `except BotoCoreError`; in botocore the two client
timeout classes are subclasses of `BotoCoreError`. -/
def is_botocore_error : PyErr → Bool
  | .botoCoreError _ => true
  | .readTimeoutError _ => true
  | .connectTimeoutError _ => true
  | _ => false

/-- Observable events of a run: a store call carrying the source call
description, a `complete_multipart_upload` request carrying the read/connect
timeout its client was configured with, a `time.sleep`, and the log line that
reports the `UploadId` left open after a failure. -/
inductive Ev where
  | call (description : String)
  | completeCall (timeout : Int)
  | sleep (seconds : Int)
  | reportUploadId (id : String)
deriving DecidableEq

/-- Loop body of `call_with_524_retry`.  `script a` is the outcome of
`func()` on attempt `a`; `fuel` counts the remaining iterations of
`for attempt in range(1, max_retries + 1)`, so the entry point passes
`max_retries.toNat`.  Falling off the loop returns Python `None`, modeled as
`Except.ok none`. -/
def retry524_go {α : Type} (script : Nat → Except PyErr α) (max_retries : Int)
    (description : String) : Nat → Nat → List Ev × Except PyErr (Option α)
  | _, 0 => ([], .ok none)
  | attempt, fuel + 1 =>
    match script attempt with
    | .ok v => ([.call description], .ok (some v))
    | .error e =>
      if is_client_error e then
        if is_524_error e then
          if (attempt : Int) = max_retries then ([.call description], .error e)
          else
            let next := retry524_go script max_retries description (attempt + 1) fuel
            (.call description :: .sleep (2 ^ attempt) :: next.1, next.2)
        else ([.call description], .error e)
      else if is_client_timeout e then
        if (attempt : Int) = max_retries then ([.call description], .error e)
        else
          let next := retry524_go script max_retries description (attempt + 1) fuel
          (.call description :: .sleep (2 ^ attempt) :: next.1, next.2)
      else ([.call description], .error e)

/-- `LargeMultipartUploader.call_with_524_retry`: call `func` (the script),
retrying only on HTTP 524 responses or client timeouts, with backoff
`2 ^ attempt` seconds, raising on the last attempt; any other error
propagates immediately. -/
def call_with_524_retry {α : Type} (description : String)
    (script : Nat → Except PyErr α) (max_retries : Int) :
    List Ev × Except PyErr (Option α) :=
  retry524_go script max_retries description 1 max_retries.toNat

/-- Result of a `head_object` call: the parsed response dictionary, with
`head.get ("ContentLength")` modeled as an optional integer. -/
structure HeadResp where
  contentLength : Option Int
deriving DecidableEq

/-- A `{"PartNumber": ..., "ETag": ...}` record produced by `upload_part`. -/
structure PartRecord where
  partNumber : Int
  etag : String
deriving DecidableEq

/-- Loop body of `upload_part`.  `script a` gives the outcome of the
`s3.upload_part` request of attempt `a` (the ETag on success).  A 507
Insufficient Storage response raises a `RuntimeError` at once; any other
caught error backs off `2 ^ attempt` seconds and retries until
`attempt == max_retries`, which re-raises it. -/
def upload_part_go (script : Nat → Except PyErr String) (max_retries : Int)
    (part_number : Int) : Nat → Nat → List Ev × Except PyErr (Option PartRecord)
  | _, 0 => ([], .ok none)
  | attempt, fuel + 1 =>
    match script attempt with
    | .ok etag => ([.call "upload_part"], .ok (some ⟨part_number, etag⟩))
    | .error e =>
      if is_botocore_error e || is_client_error e then
        if is_insufficient_storage_error e then
          ([.call "upload_part"],
            .error (.runtimeError "Server reported insufficient storage"))
        else if (attempt : Int) = max_retries then
          ([.call "upload_part"], .error e)
        else
          let next := upload_part_go script max_retries part_number (attempt + 1) fuel
          (.call "upload_part" :: .sleep (2 ^ attempt) :: next.1, next.2)
      else ([.call "upload_part"], .error e)

/-- `LargeMultipartUploader.upload_part`: the retry loop entered at attempt 1
with `range(1, max_retries + 1)` iterations. -/
def upload_part (script : Nat → Except PyErr String) (max_retries : Int)
    (part_number : Int) : List Ev × Except PyErr (Option PartRecord) :=
  upload_part_go script max_retries part_number 1 max_retries.toNat

/-- Loop body of `complete_with_timeout_retry`.  `completeScript a` is the
outcome of the `complete_multipart_upload` request of attempt `a` (`none`
means it succeeded); `headScripts a` is the script of the nested
`call_with_524_retry ("head_object", ...)` poll of attempt `a`.  Each attempt
rebuilds the client with `read_timeout = connect_timeout = timeout`, recorded
in the `completeCall` event.  A client timeout or a caught client error
captures the exception as the last error; unless the error reports
`NoSuchUpload` the coordinator sleeps the current timeout, then polls object
metadata, succeeding when the reported `ContentLength` equals the expected
size (a failing poll, like the `AttributeError` from a `None` poll result, is
swallowed).  On the last attempt the captured error is re-raised, otherwise
the timeout doubles and the attempt repeats.  The source initializes
`last_exc = None` before the loop, so the generic `RuntimeError` fallback of
the final `raise` is only reachable when no exception was captured; at the
raise site the current attempt has always just stored its exception. -/
def complete_go (completeScript : Nat → Option PyErr)
    (headScripts : Nat → Nat → Except PyErr HeadResp) (max_retries : Int)
    (expected_size : Int) : Nat → Int → Nat → List Ev × Except PyErr Unit
  | _, _, 0 => ([], .ok ())
  | attempt, timeout, fuel + 1 =>
    match completeScript attempt with
    | none => ([.completeCall timeout], .ok ())
    | some e =>
      if is_client_timeout e || is_client_error e || is_botocore_error e then
        let last_exc : Option PyErr := some e
        let no_such_upload :=
          if is_client_timeout e then false else is_no_such_upload_error e
        let waitEvs : List Ev := if no_such_upload then [] else [.sleep timeout]
        let headRun := call_with_524_retry "head_object" (headScripts attempt) max_retries
        let confirmed :=
          match headRun.2 with
          | .ok (some head) => head.contentLength == some expected_size
          | _ => false
        let prefixEvs := .completeCall timeout :: waitEvs ++ headRun.1
        if confirmed then (prefixEvs, .ok ())
        else if (attempt : Int) = max_retries then
          (prefixEvs,
            .error (last_exc.getD
              (.runtimeError "Exceeded max_retries without completing multipart upload")))
        else
          let next := complete_go completeScript headScripts max_retries expected_size
            (attempt + 1) (timeout * 2) fuel
          (prefixEvs ++ next.1, next.2)
      else ([.completeCall timeout], .error e)

/-- `LargeMultipartUploader.complete_with_timeout_retry`: the completion
coordinator, entered at attempt 1 with the initial timeout and
`range(1, max_retries + 1)` iterations. -/
def complete_with_timeout_retry (completeScript : Nat → Option PyErr)
    (headScripts : Nat → Nat → Except PyErr HeadResp) (max_retries : Int)
    (initial_timeout : Int) (expected_size : Int) : List Ev × Except PyErr Unit :=
  complete_go completeScript headScripts max_retries expected_size 1
    initial_timeout max_retries.toNat

/-- `math.ceil(a / b)` on Python integers, where the source computes the
quotient by float division: the exact rational ceiling, via the identity
`ceil (a / b) = -floor (-a / b)` with `Int.fdiv` the floor division that
Python `//` also uses.  Exact for the sizes the program handles (see the
header note on floats). -/
def py_ceil_div (a b : Int) : Int := -((-a).fdiv b)

/-- Lines 386-395 of `upload`: the per-attempt completion timeout,
`max(60, int(math.ceil(file_size / float(1024**3)) * 5))` seconds. -/
def completion_timeout (file_size : Int) : Int :=
  max 60 (py_ceil_div file_size (1024 ^ 3) * 5)

/-- One entry of the chunk plan the driver loop computes: `part_num` ranging
over `range(1, total_parts + 1)`, `offset = (part_num - 1) * part_size` and
`chunk_size = min(part_size, file_size - offset)`. -/
structure Chunk where
  part_number : Int
  offset : Int
  length : Int
deriving DecidableEq

/-- The chunk plan of the driver loop (lines 386-420 of `upload`):
`total_parts = math.ceil(file_size / part_size)` chunks, numbered from 1.
A non-positive `total_parts` gives the empty plan, as `range(1, total + 1)`
is then empty. -/
def chunk_plan (file_size part_size : Int) : List Chunk :=
  (List.range (py_ceil_div file_size part_size).toNat).map fun (i : Nat) =>
    ⟨(i : Int) + 1, (i : Int) * part_size,
      min part_size (file_size - (i : Int) * part_size)⟩

/-- The part-upload phase of the driver: each planned part number runs its
own `upload_part` retry loop (`partScripts pn` scripting its attempts); the
first part failure propagates out of the executor via `fut.result()`.  The
thread pool is modeled sequentially in part order, which preserves every
per-part trace and the set of outcomes; no claim depends on interleaving. -/
def run_parts (partScripts : Int → Nat → Except PyErr String) (max_retries : Int) :
    List Int → List Ev × Except PyErr (List (Option PartRecord))
  | [] => ([], .ok [])
  | pn :: rest =>
    let r := upload_part (partScripts pn) max_retries pn
    match r.2 with
    | .error e => (r.1, .error e)
    | .ok p =>
      let next := run_parts partScripts max_retries rest
      match next.2 with
      | .error e => (r.1 ++ next.1, .error e)
      | .ok ps => (r.1 ++ next.1, .ok (p :: ps))

/-- The scripted outcomes of every store call a run can make.  Attempt-indexed
scripts model the injected object store client. -/
structure StoreScripts where
  createScript : Nat → Except PyErr String
  partScripts : Int → Nat → Except PyErr String
  listScript : Nat → Except PyErr (List Int)
  completeScript : Nat → Option PyErr
  completeHeadScripts : Nat → Nat → Except PyErr HeadResp
  finalHeadScript : Nat → Except PyErr HeadResp

instance instDecEqExcept {ε α : Type} [DecidableEq ε] [DecidableEq α] :
    DecidableEq (Except ε α)
  | .error e, .error f =>
    if h : e = f then isTrue (by rw [h])
    else isFalse fun hc => h (by cases hc; rfl)
  | .error _, .ok _ => isFalse fun hc => Except.noConfusion hc
  | .ok _, .error _ => isFalse fun hc => Except.noConfusion hc
  | .ok a, .ok b =>
    if h : a = b then isTrue (by rw [h])
    else isFalse fun hc => h (by cases hc; rfl)

/-- Result of a driver run: its event trace, its outcome, and the value of
`self.upload_id` when the run ends (never cleared once set). -/
structure UploadResult where
  trace : List Ev
  result : Except PyErr Unit
  upload_id : Option String
deriving DecidableEq

/-- The body of the `try` block of `upload` (lines 405-464): part upload
phase, authoritative `list_parts` recount (which must report exactly
`total_parts` part records), completion, and final size verification.  The
in-memory `parts` accumulation is only passed on to the completion request
and does not influence control flow, the completion outcome being scripted.
A `None` escaping from a zero-iteration `call_with_524_retry` crashes the
following subscript or `len` call with a `TypeError`, and a `None` head
response crashes `head.get` with an `AttributeError`. -/
def upload_body (S : StoreScripts) (file_size part_size max_retries : Int) :
    List Ev × Except PyErr Unit :=
  let total_parts := py_ceil_div file_size part_size
  let partsRun := run_parts S.partScripts max_retries
    ((chunk_plan file_size part_size).map Chunk.part_number)
  match partsRun.2 with
  | .error e => (partsRun.1, .error e)
  | .ok _parts =>
    let listRun := call_with_524_retry "list_parts" S.listScript max_retries
    match listRun.2 with
    | .error e => (partsRun.1 ++ listRun.1, .error e)
    | .ok none => (partsRun.1 ++ listRun.1, .error .typeError)
    | .ok (some seen) =>
      if (seen.length : Int) ≠ total_parts then
        (partsRun.1 ++ listRun.1,
          .error (.runtimeError "Expected total_parts parts but saw len(seen)"))
      else
        let completeRun := complete_with_timeout_retry S.completeScript
          S.completeHeadScripts max_retries (completion_timeout file_size) file_size
        match completeRun.2 with
        | .error e => (partsRun.1 ++ listRun.1 ++ completeRun.1, .error e)
        | .ok _ =>
          let headRun := call_with_524_retry "head_object" S.finalHeadScript max_retries
          match headRun.2 with
          | .error e =>
            (partsRun.1 ++ listRun.1 ++ completeRun.1 ++ headRun.1, .error e)
          | .ok none =>
            (partsRun.1 ++ listRun.1 ++ completeRun.1 ++ headRun.1,
              .error .attributeError)
          | .ok (some head) =>
            if head.contentLength ≠ some file_size then
              (partsRun.1 ++ listRun.1 ++ completeRun.1 ++ headRun.1,
                .error (.runtimeError "Multipart upload verification failed: size mismatch"))
            else
              (partsRun.1 ++ listRun.1 ++ completeRun.1 ++ headRun.1, .ok ())

/-- `LargeMultipartUploader.upload`, the driver.  `total_parts` is computed
before any store call, so a zero `part_size` raises `ZeroDivisionError` with
an empty trace.  `create_multipart_upload` runs before the `try` block: its
failure is not reported with an `UploadId`.  Once `self.upload_id` is set,
any failure inside the `try` block logs the error, reports the `UploadId`
left open for resumption (guarded by Python truthiness, so an empty string
is not reported) and re-raises; the multipart session is never aborted and
`self.upload_id` is never cleared. -/
def upload (S : StoreScripts) (file_size part_size max_retries : Int) :
    UploadResult :=
  if part_size = 0 then ⟨[], .error .zeroDivisionError, none⟩
  else
    let createRun := call_with_524_retry "create_multipart_upload"
      S.createScript max_retries
    match createRun.2 with
    | .error e => ⟨createRun.1, .error e, none⟩
    | .ok none => ⟨createRun.1, .error .typeError, none⟩
    | .ok (some uid) =>
      let body := upload_body S file_size part_size max_retries
      match body.2 with
      | .ok _ => ⟨createRun.1 ++ body.1, .ok (), some uid⟩
      | .error e =>
        ⟨createRun.1 ++ body.1 ++
          (if uid = "" then [] else [Ev.reportUploadId uid]), .error e, some uid⟩

/-- Extract the configured timeout of a `complete_multipart_upload` request
event. -/
def ev_complete_timeout : Ev → Option Int
  | .completeCall t => some t
  | _ => none

/-- The specification of the chunk plan for `file_size ≥ 0` and
`part_size > 0` (stated over naturals): `ceil (file_size / part_size)` parts
numbered from 1, offsets `(part_number - 1) * part_size`, contiguous,
non-overlapping, covering `[0, file_size)` exactly, all of length
`part_size` except the last, whose length is
`file_size - (total_parts - 1) * part_size`. -/
def chunk_plan_spec (fs ps : Nat) : Prop :=
  let plan := chunk_plan (fs : Int) (ps : Int)
  plan.length = (fs + ps - 1) / ps ∧
  (∀ i : Fin plan.length,
    (plan.get i).part_number = (i.val : Int) + 1 ∧
    (plan.get i).offset = (i.val : Int) * (ps : Int) ∧
    0 ≤ (plan.get i).offset ∧
    (plan.get i).offset + (plan.get i).length ≤ (fs : Int) ∧
    0 < (plan.get i).length ∧
    (i.val + 1 < plan.length → (plan.get i).length = (ps : Int)) ∧
    (i.val + 1 = plan.length →
      (plan.get i).length =
        (fs : Int) - ((plan.length - 1 : Nat) : Int) * (ps : Int)) ∧
    (∀ j : Fin plan.length, j.val = i.val + 1 →
      (plan.get j).offset = (plan.get i).offset + (plan.get i).length)) ∧
  (∀ k : Nat, k < fs → ∃! i : Fin plan.length,
    (plan.get i).offset ≤ (k : Int) ∧
    (k : Int) < (plan.get i).offset + (plan.get i).length)

/-- Completion script of the C3 scenario: the first two complete requests
time out client-side, the third succeeds. -/
def c3CompleteScript : Nat → Option PyErr
  | 1 => some (.readTimeoutError 1)
  | 2 => some (.readTimeoutError 2)
  | _ => none

/-- Poll scripts of the C3 scenario: the poll of attempt 1 raises a
`NoSuchUpload` client error; later polls report a mismatching size. -/
def c3HeadScripts : Nat → Nat → Except PyErr HeadResp
  | 1, _ => .error (.clientError none (some "NoSuchUpload") 7)
  | _, _ => .ok ⟨some 50⟩

/-- Store scripts of the C9 scenario: every call succeeds; the recount
reports no parts. -/
def c9Scripts : StoreScripts where
  createScript := fun _ => .ok "UP1"
  partScripts := fun _ _ => .ok "etag"
  listScript := fun _ => .ok []
  completeScript := fun _ => none
  completeHeadScripts := fun _ _ => .ok ⟨some 100⟩
  finalHeadScript := fun _ => .ok ⟨some 100⟩

/-- Store scripts of a fully successful 101-byte upload in 50-byte parts. -/
def demoScripts : StoreScripts where
  createScript := fun _ => .ok "U1"
  partScripts := fun _ _ => .ok "etag"
  listScript := fun _ => .ok [1, 2, 3]
  completeScript := fun _ => none
  completeHeadScripts := fun _ _ => .ok ⟨some 101⟩
  finalHeadScript := fun _ => .ok ⟨some 101⟩

/-- Store scripts where the complete request times out twice before
succeeding; used to exhibit the timeout doubling schedule. -/
def c7Scripts : StoreScripts where
  createScript := fun _ => .ok "U1"
  partScripts := fun _ _ => .ok "etag"
  listScript := fun _ => .ok [1]
  completeScript := fun a => if a ≤ 2 then some (.readTimeoutError a) else none
  completeHeadScripts := fun _ _ => .ok ⟨some 0⟩
  finalHeadScript := fun _ => .ok ⟨some 7⟩

/-- Store scripts where the second part upload receives a 507 Insufficient
Storage response; the run fails after the session was created. -/
def c8Scripts : StoreScripts where
  createScript := fun _ => .ok "U1"
  partScripts := fun pn _ =>
    if pn = 2 then .error (.clientError (some 507) none 0) else .ok "etag"
  listScript := fun _ => .ok [1, 2]
  completeScript := fun _ => none
  completeHeadScripts := fun _ _ => .ok ⟨some 100⟩
  finalHeadScript := fun _ => .ok ⟨some 100⟩

theorem retry524_go_no_complete {α : Type} (script : Nat → Except PyErr α)
    (mr : Int) (d : String) :
    ∀ a r, ((retry524_go script mr d a r).1.filterMap ev_complete_timeout) = [] := by
  intro a r
  induction r generalizing a with
  | zero => simp [retry524_go]
  | succ n ih =>
    rw [retry524_go]
    cases hsa : script a with
    | ok v => simp [ev_complete_timeout]
    | error e =>
      simp only
      split_ifs <;> simp [ev_complete_timeout, ih]

theorem upload_part_go_no_complete (script : Nat → Except PyErr String)
    (mr : Int) (pn : Int) :
    ∀ a r, ((upload_part_go script mr pn a r).1.filterMap ev_complete_timeout) = [] := by
  intro a r
  induction r generalizing a with
  | zero => simp [upload_part_go]
  | succ n ih =>
    rw [upload_part_go]
    cases hsa : script a with
    | ok v => simp [ev_complete_timeout]
    | error e =>
      simp only
      split_ifs <;> simp [ev_complete_timeout, ih]

theorem run_parts_no_complete (partScripts : Int → Nat → Except PyErr String)
    (mr : Int) :
    ∀ pns, ((run_parts partScripts mr pns).1.filterMap ev_complete_timeout) = [] := by
  intro pns
  induction pns with
  | nil => simp [run_parts]
  | cons pn rest ih =>
    rw [run_parts]
    split
    · simpa using upload_part_go_no_complete _ mr pn 1 mr.toNat
    · dsimp only
      split <;> simpa [upload_part, upload_part_go_no_complete] using ih

/-- No member of any trace segment equals the given event when each call
event of the segment carries description `d` distinct from it. -/
theorem retry524_go_not_abort {α : Type} (script : Nat → Except PyErr α)
    (mr : Int) (d : String) (hd : d ≠ "abort_multipart_upload") :
    ∀ a r, Ev.call "abort_multipart_upload" ∉ (retry524_go script mr d a r).1 := by
  intro a r
  induction r generalizing a with
  | zero => simp [retry524_go]
  | succ n ih =>
    rw [retry524_go]
    cases hsa : script a with
    | ok v => simp [Ne.symm hd]
    | error e =>
      simp only
      split_ifs <;> simp [Ne.symm hd, ih]

theorem upload_part_go_not_abort (script : Nat → Except PyErr String)
    (mr : Int) (pn : Int) :
    ∀ a r, Ev.call "abort_multipart_upload" ∉ (upload_part_go script mr pn a r).1 := by
  intro a r
  induction r generalizing a with
  | zero => simp [upload_part_go]
  | succ n ih =>
    rw [upload_part_go]
    cases hsa : script a with
    | ok v => simp
    | error e =>
      simp only
      split_ifs <;> simp [ih]

theorem run_parts_not_abort (partScripts : Int → Nat → Except PyErr String)
    (mr : Int) :
    ∀ pns, Ev.call "abort_multipart_upload" ∉ (run_parts partScripts mr pns).1 := by
  intro pns
  induction pns with
  | nil => simp [run_parts]
  | cons pn rest ih =>
    rw [run_parts]
    split
    · simpa using upload_part_go_not_abort _ mr pn 1 mr.toNat
    · dsimp only
      split <;> simpa [upload_part, upload_part_go_not_abort] using ih

theorem nat_le_ceil_mul (fs ps : Nat) (h : 0 < ps) :
    fs ≤ ((fs + ps - 1) / ps) * ps := by
  have h1 := Nat.div_add_mod (fs + ps - 1) ps
  have h2 := Nat.mod_lt (fs + ps - 1) h
  rw [Nat.mul_comm]
  generalize hq : ps * ((fs + ps - 1) / ps) = Q at h1 ⊢
  generalize hm : (fs + ps - 1) % ps = m at h1 h2
  omega

theorem nat_mul_lt_of_lt_ceil {fs ps i : Nat} (h : 0 < ps)
    (hi : i < (fs + ps - 1) / ps) : i * ps < fs := by
  have h1 : (i + 1) * ps ≤ ((fs + ps - 1) / ps) * ps :=
    Nat.mul_le_mul_right ps hi
  have h2 : ((fs + ps - 1) / ps) * ps ≤ fs + ps - 1 := Nat.div_mul_le_self _ _
  have h3 : (i + 1) * ps = i * ps + ps := Nat.succ_mul i ps
  generalize hA : i * ps = A at h1 h3 ⊢
  generalize hB : ((fs + ps - 1) / ps) * ps = B at h1 h2
  generalize hC : (i + 1) * ps = C at h1 h3
  omega

theorem nat_lt_ceil_of_mul_lt {fs ps k : Nat} (h : 0 < ps) (hk : k < fs) :
    k / ps < (fs + ps - 1) / ps := by
  rw [Nat.div_lt_iff_lt_mul h]
  exact Nat.lt_of_lt_of_le hk (nat_le_ceil_mul fs ps h)

theorem nat_lt_div_mul_add (k ps : Nat) (h : 0 < ps) : k < k / ps * ps + ps := by
  have h1 := Nat.div_add_mod k ps
  have h2 := Nat.mod_lt k h
  generalize hq : ps * (k / ps) = Q at h1
  have h3 : k / ps * ps = Q := by rw [Nat.mul_comm]; exact hq
  rw [h3]
  generalize hm : k % ps = m at h1 h2
  omega

/-- `py_ceil_div` on naturals with a positive divisor is the usual
`(fs + ps - 1) / ps` ceiling division. -/
theorem py_ceil_div_natCast (fs ps : Nat) (h : 0 < ps) :
    py_ceil_div (fs : Int) (ps : Int) = (((fs + ps - 1) / ps : Nat) : Int) := by
  unfold py_ceil_div
  rw [Int.fdiv_eq_ediv _ (by exact_mod_cast Nat.zero_le ps)]
  have hps : (0 : Int) < (ps : Int) := by exact_mod_cast h
  have h1 : (fs : Int) ≤ (((fs + ps - 1) / ps : Nat) : Int) * ps := by
    exact_mod_cast nat_le_ceil_mul fs ps h
  have h3 : (((fs + ps - 1) / ps : Nat) : Int) * ps < (fs : Int) + ps := by
    have h2 : ((fs + ps - 1) / ps) * ps ≤ fs + ps - 1 := Nat.div_mul_le_self _ _
    have h4 : ((fs + ps - 1) / ps) * ps < fs + ps := by omega
    exact_mod_cast h4
  have key : ((((fs + ps - 1) / ps : Nat) : Int) * ps - fs) +
      (ps : Int) * (-(((fs + ps - 1) / ps : Nat) : Int)) = -(fs : Int) ∧
      (0 : Int) ≤ (((fs + ps - 1) / ps : Nat) : Int) * ps - fs ∧
      (((fs + ps - 1) / ps : Nat) : Int) * ps - fs < ps :=
    ⟨by ring, by linarith, by linarith⟩
  have hq := ((Int.ediv_emod_unique hps).mpr key).1
  rw [hq, Int.neg_neg]

/-- Flooring division of a nonpositive numerator by a negative denominator
is nonnegative, by the constructor cases of `Int.fdiv`. -/
theorem fdiv_nonneg_of_nonpos_of_neg :
    ∀ {a b : Int}, a ≤ 0 → b < 0 → 0 ≤ a.fdiv b
  | .ofNat 0, b, _, _ => by simp
  | .ofNat (m + 1), _, ha, _ =>
      absurd ha (by rw [Int.ofNat_eq_natCast]; exact_mod_cast Nat.not_succ_le_zero m)
  | .negSucc m, .ofNat n, _, hb =>
      absurd hb (Int.not_lt.mpr (Int.ofNat_nonneg n))
  | .negSucc m, .negSucc n, _, _ => by
      show 0 ≤ Int.fdiv (.negSucc m) (.negSucc n)
      rw [Int.fdiv]
      exact Int.ofNat_nonneg _

/-- For a nonnegative size and negative part size, `math.ceil` of the
quotient is nonpositive, so the chunk plan is empty. -/
theorem py_ceil_div_nonpos {fs ps : Int} (hfs : 0 ≤ fs) (hps : ps < 0) :
    py_ceil_div fs ps ≤ 0 := by
  unfold py_ceil_div
  have h := fdiv_nonneg_of_nonpos_of_neg (show -fs ≤ 0 by omega) hps
  omega

theorem complete_go_not_abort (cs : Nat → Option PyErr)
    (hs : Nat → Nat → Except PyErr HeadResp) (mr es : Int) :
    ∀ a t r, Ev.call "abort_multipart_upload" ∉ (complete_go cs hs mr es a t r).1 := by
  intro a t r
  induction r generalizing a t with
  | zero => simp [complete_go]
  | succ n ih =>
    rw [complete_go]
    cases hsa : cs a with
    | none => simp
    | some e =>
      simp only
      have hh := retry524_go_not_abort (hs a) mr "head_object" (by decide) 1 mr.toNat
      split_ifs <;>
        simp_all [call_with_524_retry, ih]

/-- When every attempt of the coordinator fails with a caught exception and
no metadata poll ever reports the expected size, the loop runs to attempt
`M = max_retries` and re-raises the error captured on that last attempt. -/
theorem complete_go_exhaust (cs : Nat → Option PyErr)
    (hs : Nat → Nat → Except PyErr HeadResp) (mr es : Int) (err : Nat → PyErr)
    (M : Nat) (hM : mr = (M : Int))
    (hfail : ∀ i : Nat, 1 ≤ i → i ≤ M → cs i = some (err i) ∧
      (is_client_timeout (err i) || is_client_error (err i) ||
        is_botocore_error (err i)) = true)
    (hnoconf : ∀ i : Nat, 1 ≤ i → i ≤ M → ∀ hd : HeadResp,
      (call_with_524_retry "head_object" (hs i) mr).2 = .ok (some hd) →
      hd.contentLength ≠ some es) :
    ∀ r a t, 1 ≤ a → a + r = M →
      (complete_go cs hs mr es a t (r + 1)).2 = .error (err M) := by
  intro r
  induction r with
  | zero =>
    intro a t h1 h2
    have haM : a = M := by omega
    subst haM
    obtain ⟨hcs, hcaught⟩ := hfail a h1 (by omega)
    have hamr : (a : Int) = mr := hM.symm
    rcases hr : (call_with_524_retry "head_object" (hs a) mr).2 with e2 | o
    · rw [complete_go, hcs]
      simp only
      rw [hr]
      simp [hcaught, hamr]
    · rcases o with _ | hd
      · rw [complete_go, hcs]
        simp only
        rw [hr]
        simp [hcaught, hamr]
      · have hne := hnoconf a h1 (by omega) hd hr
        rw [complete_go, hcs]
        simp only
        rw [hr]
        simp [hcaught, hamr, beq_iff_eq, hne]
  | succ rr ih =>
    intro a t h1 h2
    obtain ⟨hcs, hcaught⟩ := hfail a h1 (by omega)
    have hamr : ¬((a : Int) = mr) := by
      rw [hM]
      intro hc
      have haM : a = M := by exact_mod_cast hc
      omega
    have htail : (complete_go cs hs mr es (a + 1) (t * 2) (rr + 1)).2 =
        .error (err M) := ih (a + 1) (t * 2) (by omega) (by omega)
    rcases hr : (call_with_524_retry "head_object" (hs a) mr).2 with e2 | o
    · rw [complete_go, hcs]
      simp only
      rw [hr]
      simp [hcaught, hamr, htail]
    · rcases o with _ | hd
      · rw [complete_go, hcs]
        simp only
        rw [hr]
        simp [hcaught, hamr, htail]
      · have hne := hnoconf a h1 (by omega) hd hr
        rw [complete_go, hcs]
        simp only
        rw [hr]
        simp [hcaught, hamr, beq_iff_eq, hne, htail]

/-- A trace whose extracted completion timeouts form the empty list contains
no `completeCall` event. -/
theorem not_completeCall_of_filterMap {l : List Ev}
    (h : l.filterMap ev_complete_timeout = []) :
    ∀ u, Ev.completeCall u ∉ l := by
  intro u hu
  have hm : u ∈ l.filterMap ev_complete_timeout :=
    List.mem_filterMap.mpr ⟨Ev.completeCall u, hu, rfl⟩
  rw [h] at hm
  exact absurd hm (List.not_mem_nil u)

theorem call524_no_complete {α : Type} (d : String)
    (script : Nat → Except PyErr α) (mr : Int) :
    ((call_with_524_retry d script mr).1.filterMap ev_complete_timeout) = [] :=
  retry524_go_no_complete script mr d 1 mr.toNat

theorem call524_not_abort {α : Type} (d : String)
    (script : Nat → Except PyErr α) (mr : Int)
    (hd : d ≠ "abort_multipart_upload") :
    Ev.call "abort_multipart_upload" ∉ (call_with_524_retry d script mr).1 :=
  retry524_go_not_abort script mr d hd 1 mr.toNat

theorem complete_no_abort (cs : Nat → Option PyErr)
    (hs : Nat → Nat → Except PyErr HeadResp) (mr t0 es : Int) :
    Ev.call "abort_multipart_upload" ∉
      (complete_with_timeout_retry cs hs mr t0 es).1 :=
  complete_go_not_abort cs hs mr es 1 t0 mr.toNat

/-- Case split on a driver-body run: either the run fails before the
completion phase, with no completion request issued, or the `list_parts`
recount reported exactly `total_parts` part records, every completion request
of the run belongs to the completion phase, and success further requires the
final `head_object` size to equal `file_size`. -/
theorem upload_body_main (S : StoreScripts) (fs ps mr : Int) :
    ((upload_body S fs ps mr).1.filterMap ev_complete_timeout = [] ∧
      (upload_body S fs ps mr).2 ≠ .ok ()) ∨
    ((∃ seen, (call_with_524_retry "list_parts" S.listScript mr).2 =
        .ok (some seen) ∧ (seen.length : Int) = py_ceil_div fs ps) ∧
      (upload_body S fs ps mr).1.filterMap ev_complete_timeout =
        (complete_with_timeout_retry S.completeScript S.completeHeadScripts mr
          (completion_timeout fs) fs).1.filterMap ev_complete_timeout ∧
      ((upload_body S fs ps mr).2 = .ok () →
        ∃ hd, (call_with_524_retry "head_object" S.finalHeadScript mr).2 =
          .ok (some hd) ∧ hd.contentLength = some fs)) := by
  have hparts := run_parts_no_complete S.partScripts mr
    ((chunk_plan fs ps).map Chunk.part_number)
  have hlist := call524_no_complete "list_parts" S.listScript mr
  have hfinal := call524_no_complete "head_object" S.finalHeadScript mr
  rcases hp : (run_parts S.partScripts mr
      ((chunk_plan fs ps).map Chunk.part_number)).2 with e | parts
  · refine Or.inl ⟨?_, ?_⟩ <;>
      simp [upload_body, hp, hparts]
  rcases hl : (call_with_524_retry "list_parts" S.listScript mr).2 with e | oseen
  · refine Or.inl ⟨?_, ?_⟩ <;>
      simp [upload_body, hp, hl, hparts, hlist]
  rcases oseen with _ | seen
  · refine Or.inl ⟨?_, ?_⟩ <;>
      simp [upload_body, hp, hl, hparts, hlist]
  by_cases hlen : (seen.length : Int) = py_ceil_div fs ps
  · rcases hh : (call_with_524_retry "head_object" S.finalHeadScript mr).2
      with e | ohd
    · refine Or.inr ⟨⟨seen, rfl, hlen⟩, ?_, ?_⟩ <;>
        simp [upload_body, hp, hl, hlen, hh, hparts, hlist, hfinal] <;>
        (try split) <;>
        simp [hparts, hlist, hfinal]
    · rcases ohd with _ | hd
      · refine Or.inr ⟨⟨seen, rfl, hlen⟩, ?_, ?_⟩ <;>
          simp [upload_body, hp, hl, hlen, hh, hparts, hlist, hfinal] <;>
          (try split) <;>
          simp [hparts, hlist, hfinal]
      · by_cases hsz : hd.contentLength = some fs
        · refine Or.inr ⟨⟨seen, rfl, hlen⟩, ?_, fun _ => ⟨hd, rfl, hsz⟩⟩
          simp [upload_body, hp, hl, hlen, hh, hsz, hparts, hlist, hfinal]
          (try split) <;> simp [hparts, hlist, hfinal]
        · refine Or.inr ⟨⟨seen, rfl, hlen⟩, ?_, ?_⟩ <;>
            simp [upload_body, hp, hl, hlen, hh, hsz, hparts, hlist, hfinal] <;>
            (try split) <;>
            simp [hparts, hlist, hfinal]
  · refine Or.inl ⟨?_, ?_⟩ <;>
      simp [upload_body, hp, hl, hlen, hparts, hlist]

/-- No phase of the driver body ever issues an `abort_multipart_upload`
request. -/
theorem upload_body_not_abort (S : StoreScripts) (fs ps mr : Int) :
    Ev.call "abort_multipart_upload" ∉ (upload_body S fs ps mr).1 := by
  have hparts := run_parts_not_abort S.partScripts mr
    ((chunk_plan fs ps).map Chunk.part_number)
  have hlist := call524_not_abort "list_parts" S.listScript mr (by decide)
  have hfinal := call524_not_abort "head_object" S.finalHeadScript mr (by decide)
  have hcomp := complete_no_abort S.completeScript S.completeHeadScripts mr
    (completion_timeout fs) fs
  unfold upload_body
  dsimp only
  repeat' split
  all_goals simp_all [List.mem_append]

/-- The driver never issues an `abort_multipart_upload` request: the remote
multipart session is never aborted by this system. -/
theorem upload_not_abort (S : StoreScripts) (fs ps mr : Int) :
    Ev.call "abort_multipart_upload" ∉ (upload S fs ps mr).trace := by
  have hcreate := call524_not_abort "create_multipart_upload" S.createScript mr
    (by decide)
  have hbody := upload_body_not_abort S fs ps mr
  unfold upload
  dsimp only
  repeat' split
  all_goals simp_all [List.mem_append]

theorem filterMap_ct_completeCall (t : Int) (l : List Ev) :
    (Ev.completeCall t :: l).filterMap ev_complete_timeout =
      t :: l.filterMap ev_complete_timeout := rfl

theorem filterMap_ct_sleep (s : Int) (l : List Ev) :
    (Ev.sleep s :: l).filterMap ev_complete_timeout =
      l.filterMap ev_complete_timeout := rfl

theorem filterMap_ct_report (uid : String) :
    List.filterMap ev_complete_timeout
      (if uid = "" then [] else [Ev.reportUploadId uid]) = [] := by
  split <;> rfl

/-- The per-attempt timeouts recorded by the coordinator starting from
timeout `t` follow the doubling law: position `i` of the extracted timeout
list holds `t * 2 ^ i`. -/
theorem complete_go_timeout_at (cs : Nat → Option PyErr)
    (hs : Nat → Nat → Except PyErr HeadResp) (mr es : Int) :
    ∀ r a t i x,
      (((complete_go cs hs mr es a t r).1.filterMap ev_complete_timeout)[i]?
        = some x) → x = t * 2 ^ i := by
  intro r
  induction r with
  | zero =>
    intro a t i x h
    simp [complete_go] at h
  | succ n ih =>
    intro a t i x h
    rw [complete_go] at h
    cases hsa : cs a with
    | none =>
      rw [hsa] at h
      cases i with
      | zero =>
        simp only [filterMap_ct_completeCall, List.filterMap_nil,
          List.getElem?_cons_zero, Option.some.injEq] at h
        simp only [pow_zero, mul_one]
        omega
      | succ m =>
        simp only [filterMap_ct_completeCall, List.filterMap_nil,
          List.getElem?_cons_succ, List.getElem?_nil] at h
        exact Option.noConfusion h
    | some e =>
      rw [hsa] at h
      simp only at h
      have hh := retry524_go_no_complete (hs a) mr "head_object" 1 mr.toNat
      split_ifs at h <;>
        (simp only [List.cons_append, List.append_assoc, List.nil_append,
          filterMap_ct_completeCall, filterMap_ct_sleep, List.filterMap_append,
          List.filterMap_nil, call_with_524_retry, hh, List.nil_append] at h) <;>
        (cases i with
        | zero =>
          simp only [List.getElem?_cons_zero, Option.some.injEq] at h
          simp only [pow_zero, mul_one]
          omega
        | succ m =>
          simp only [List.getElem?_cons_succ, List.getElem?_nil] at h
          first
          | exact Option.noConfusion h
          | (rw [ih (a + 1) (t * 2) m x h]; ring))

/-- A successful driver run means the body of the `try` block succeeded. -/
theorem upload_result_ok (S : StoreScripts) (fs ps mr : Int)
    (h : (upload S fs ps mr).result = .ok ()) :
    (upload_body S fs ps mr).2 = .ok () := by
  unfold upload at h
  dsimp only at h
  split at h
  · exact absurd h (by simp)
  · split at h
    · exact absurd h (by simp)
    · exact absurd h (by simp)
    · split at h
      · rename_i u heq
        exact heq
      · exact absurd h (by simp)

/-- Every `complete_multipart_upload` request of a driver run is configured
with read and connect timeouts `completion_timeout file_size * 2 ^ i`, where
`i` counts the earlier completion attempts of the run. -/
theorem upload_timeout_at (S : StoreScripts) (fs ps mr : Int) (i : Nat) (x : Int)
    (h : (((upload S fs ps mr).trace.filterMap ev_complete_timeout))[i]? = some x) :
    x = completion_timeout fs * 2 ^ i := by
  have hcreate := call524_no_complete "create_multipart_upload" S.createScript mr
  unfold upload at h
  dsimp only at h
  split at h
  · simp at h
  · split at h
    · rw [hcreate] at h
      exact absurd h (by simp)
    · rw [hcreate] at h
      exact absurd h (by simp)
    · split at h
      · simp only [List.filterMap_append, hcreate, List.nil_append] at h
        rcases upload_body_main S fs ps mr with ⟨hmain, _⟩ | ⟨_, hmain, _⟩ <;>
          rw [hmain] at h
        · simp at h
        · exact complete_go_timeout_at S.completeScript S.completeHeadScripts
            mr fs mr.toNat 1 (completion_timeout fs) i x h
      · simp only [List.filterMap_append, hcreate, List.nil_append,
          filterMap_ct_report, List.append_nil] at h
        rcases upload_body_main S fs ps mr with ⟨hmain, _⟩ | ⟨_, hmain, _⟩ <;>
          rw [hmain] at h
        · simp at h
        · exact complete_go_timeout_at S.completeScript S.completeHeadScripts
            mr fs mr.toNat 1 (completion_timeout fs) i x h

/-- The chunk the driver loop builds for 0-based index `i`. -/
theorem chunk_plan_get (fs ps : Int) (i : Nat)
    (hi : i < (chunk_plan fs ps).length) :
    (chunk_plan fs ps).get ⟨i, hi⟩ =
      ⟨(i : Int) + 1, (i : Int) * ps, min ps (fs - (i : Int) * ps)⟩ := by
  rw [List.get_eq_getElem]
  simp [chunk_plan]

/-- C2: for every `file_size ≥ 0` and `part_size > 0` the driver's chunk
plan has `ceil (file_size / part_size)` parts numbered from 1 with offsets
`(part_number - 1) * part_size`; the parts are contiguous, non-overlapping,
stay inside and cover `[0, file_size)` exactly (every byte below `file_size`
lies in exactly one part); every part except the last has length
`part_size`, and the last has length
`file_size - (total_parts - 1) * part_size`. -/
theorem C2_chunk_plan_correct (fs ps : Nat) (hps : 0 < ps) :
    chunk_plan_spec fs ps := by
  have hpsZ : (0 : Int) < (ps : Int) := by exact_mod_cast hps
  have hlen : (chunk_plan (fs : Int) (ps : Int)).length = (fs + ps - 1) / ps := by
    rw [chunk_plan, List.length_map, List.length_range,
      py_ceil_div_natCast fs ps hps, Int.toNat_natCast]
  unfold chunk_plan_spec
  dsimp only
  refine ⟨hlen, ?_, ?_⟩
  · rintro ⟨iv, hilt⟩
    have hiv : iv < (fs + ps - 1) / ps := by omega
    have hg := chunk_plan_get (fs : Int) (ps : Int) iv hilt
    have hmul : iv * ps < fs := nat_mul_lt_of_lt_ceil hps hiv
    have hmulZ : ((iv : Int)) * (ps : Int) < (fs : Int) := by exact_mod_cast hmul
    have hminfull : ∀ h6 : iv + 1 < (fs + ps - 1) / ps,
        min (ps : Int) ((fs : Int) - (iv : Int) * ps) = (ps : Int) := by
      intro h6
      have h6m : (iv + 1) * ps < fs := nat_mul_lt_of_lt_ceil hps h6
      have h6z : ((iv : Int) + 1) * (ps : Int) < (fs : Int) := by
        exact_mod_cast h6m
      have hid : ((iv : Int) + 1) * (ps : Int) = (iv : Int) * ps + ps := by
        ring
      exact min_eq_left (by linarith)
    simp only [hg]
    refine ⟨trivial, trivial, by positivity, ?_, ?_, ?_, ?_, ?_⟩
    · have h4 := min_le_right (ps : Int) ((fs : Int) - (iv : Int) * ps)
      linarith
    · exact lt_min hpsZ (by linarith)
    · intro h6
      have h6T : iv + 1 < (fs + ps - 1) / ps := by omega
      exact hminfull h6T
    · intro h7
      have h7T : iv + 1 = (fs + ps - 1) / ps := by omega
      have hfsle : fs ≤ ((fs + ps - 1) / ps) * ps := nat_le_ceil_mul fs ps hps
      rw [← h7T] at hfsle
      have hfsleZ : (fs : Int) ≤ ((iv : Int) + 1) * (ps : Int) := by
        exact_mod_cast hfsle
      have hid : ((iv : Int) + 1) * (ps : Int) = (iv : Int) * ps + ps := by
        ring
      have hlast : (chunk_plan (fs : Int) (ps : Int)).length - 1 = iv := by omega
      rw [min_eq_right (by linarith), hlast]
    · rintro ⟨jv, hjlt⟩ hj
      simp only at hj
      have hgj := chunk_plan_get (fs : Int) (ps : Int) jv hjlt
      rw [hgj]
      have h8 : iv + 1 < (fs + ps - 1) / ps := by omega
      simp only
      rw [hminfull h8, hj]
      push_cast
      ring
  · intro k hk
    have hkT : k / ps < (fs + ps - 1) / ps := nat_lt_ceil_of_mul_lt hps hk
    have hkL : k / ps < (chunk_plan (fs : Int) (ps : Int)).length := by omega
    have hg0 := chunk_plan_get (fs : Int) (ps : Int) (k / ps) hkL
    refine ⟨⟨k / ps, hkL⟩, ⟨?_, ?_⟩, ?_⟩
    · rw [hg0]
      dsimp only
      exact_mod_cast Nat.div_mul_le_self k ps
    · rw [hg0]
      dsimp only
      rcases le_or_lt (ps : Int) ((fs : Int) - ((k / ps : Nat) : Int) * ps)
        with hcase | hcase
      · rw [min_eq_left hcase]
        exact_mod_cast nat_lt_div_mul_add k ps hps
      · rw [min_eq_right (le_of_lt hcase)]
        have hkZ : ((k : Nat) : Int) < (fs : Int) := by exact_mod_cast hk
        linarith
    · rintro ⟨jv, hjlt⟩ ⟨hj1, hj2⟩
      have hgj := chunk_plan_get (fs : Int) (ps : Int) jv hjlt
      rw [hgj] at hj1 hj2
      dsimp only at hj1 hj2
      have hj2b : ((k : Nat) : Int) < (jv : Int) * ps + ps := by
        have hm := min_le_left (ps : Int) ((fs : Int) - (jv : Int) * ps)
        linarith
      have hj1n : jv * ps ≤ k := by exact_mod_cast hj1
      have hj2n : k < (jv + 1) * ps := by
        have hid : ((jv : Int) + 1) * (ps : Int) = (jv : Int) * ps + ps := by
          ring
        exact_mod_cast hid ▸ hj2b
      have hdiv : k / ps = jv := Nat.div_eq_of_lt_le hj1n hj2n
      exact Fin.ext hdiv.symm

theorem C2_chunk_plan_correct_witness :
    0 < 50 ∧ chunk_plan_spec 101 50 :=
  ⟨by decide, C2_chunk_plan_correct 101 50 (by decide)⟩

/-- C10: for `max_retries ≤ 0` the retry loops of `call_with_524_retry` and
`upload_part` run zero iterations: the scripted store operation is never
invoked (empty trace), no error is raised, and the function returns Python
`None` instead of a result. -/
theorem C10_nonpositive_retry_budget {α : Type} (d : String)
    (script : Nat → Except PyErr α) (pscript : Nat → Except PyErr String)
    (mr pn : Int) (h : mr ≤ 0) :
    call_with_524_retry d script mr = ([], .ok none) ∧
    upload_part pscript mr pn = ([], .ok none) := by
  have h0 : mr.toNat = 0 := Int.toNat_of_nonpos h
  constructor
  · rw [call_with_524_retry, h0, retry524_go]
  · rw [upload_part, h0, upload_part_go]

theorem C10_nonpositive_retry_budget_witness :
    ((0 : Int) ≤ 0) ∧
    (call_with_524_retry "create_multipart_upload"
        (fun _ => Except.ok "id") 0 = ([], .ok none) ∧
      upload_part (fun _ => Except.ok "etag") 0 1 = ([], .ok none)) :=
  ⟨by decide,
    C10_nonpositive_retry_budget "create_multipart_upload"
      (fun _ => Except.ok "id") (fun _ => Except.ok "etag") 0 1 (by decide)⟩

/-- C5: a 507 Insufficient Storage response during a part upload is fatal on
that same attempt: `upload_part` raises the insufficient-storage
`RuntimeError` at once, with no backoff sleep and no further attempt,
however much retry budget remains. -/
theorem C5_storage_full_immediately_fatal (script : Nat → Except PyErr String)
    (mr pn : Int) (a r : Nat) (e : PyErr)
    (h507 : is_insufficient_storage_error e = true) (hs : script a = .error e) :
    upload_part_go script mr pn a (r + 1) =
      ([.call "upload_part"],
        .error (.runtimeError "Server reported insufficient storage")) := by
  have hce : is_client_error e = true := by
    cases e <;> simp_all [is_insufficient_storage_error, is_client_error]
  rw [upload_part_go, hs]
  simp [h507, hce]

theorem C5_storage_full_immediately_fatal_witness :
    is_insufficient_storage_error (PyErr.clientError (some 507) none 0) = true ∧
    upload_part_go (fun _ => Except.error (PyErr.clientError (some 507) none 0))
        5 1 1 4 =
      ([.call "upload_part"],
        .error (.runtimeError "Server reported insufficient storage")) :=
  ⟨rfl,
    C5_storage_full_immediately_fatal
      (fun _ => Except.error (PyErr.clientError (some 507) none 0)) 5 1 1 3
      (PyErr.clientError (some 507) none 0) rfl rfl⟩

/-- C1: after a client-side read or connect timeout on the complete request,
the coordinator does not re-send it: it sleeps exactly the current
per-attempt timeout, then polls object metadata, and when the poll reports
the expected size it returns success; the whole remaining trace holds the
one `completeCall`, so the complete request is not re-issued in that or any
later attempt. -/
theorem C1_client_timeout_poll_confirms (cs : Nat → Option PyErr)
    (hs : Nat → Nat → Except PyErr HeadResp) (mr es : Int) (a : Nat) (t : Int)
    (r : Nat) (e : PyErr) (he : is_client_timeout e = true) (hcs : cs a = some e)
    (hconf : (call_with_524_retry "head_object" (hs a) mr).2 =
      .ok (some ⟨some es⟩)) :
    complete_go cs hs mr es a t (r + 1) =
      (Ev.completeCall t :: Ev.sleep t ::
        (call_with_524_retry "head_object" (hs a) mr).1, .ok ()) ∧
    ∀ u, Ev.completeCall u ∉ (call_with_524_retry "head_object" (hs a) mr).1 := by
  constructor
  · have hcaught : (is_client_timeout e || is_client_error e ||
        is_botocore_error e) = true := by simp [he]
    rw [complete_go, hcs]
    simp only
    rw [hconf]
    simp [he, hcaught]
  · exact not_completeCall_of_filterMap
      (call524_no_complete "head_object" (hs a) mr)

theorem C1_client_timeout_poll_confirms_witness :
    is_client_timeout (PyErr.readTimeoutError 0) = true ∧
    (complete_go (fun _ => some (PyErr.readTimeoutError 0))
        (fun _ _ => Except.ok ⟨some 100⟩) 3 100 1 60 3 =
      (Ev.completeCall 60 :: Ev.sleep 60 ::
        (call_with_524_retry "head_object"
          (fun _ => Except.ok (⟨some 100⟩ : HeadResp)) 3).1, .ok ()) ∧
    ∀ u, Ev.completeCall u ∉ (call_with_524_retry "head_object"
      (fun _ => Except.ok (⟨some 100⟩ : HeadResp)) 3).1) :=
  ⟨rfl,
    C1_client_timeout_poll_confirms (fun _ => some (PyErr.readTimeoutError 0))
      (fun _ _ => Except.ok ⟨some 100⟩) 3 100 1 60 2 (PyErr.readTimeoutError 0)
      rfl rfl rfl⟩

/-- C3 counterexample: the claim extends the skip-wait fast path to the
metadata-poll call, but the code applies it only to the completion call.  In
this concrete run the poll of attempt 1 reports `NoSuchUpload` (trace index
2), yet the following poll (trace index 5) is preceded by a full 120-second
wait (trace index 4): the wait is not skipped and the elapsed wait before
that poll is nonzero. -/
theorem C3_counterexample :
    is_no_such_upload_error (PyErr.clientError none (some "NoSuchUpload") 7)
      = true ∧
    (call_with_524_retry "head_object" (c3HeadScripts 1) 3).2 =
      .error (PyErr.clientError none (some "NoSuchUpload") 7) ∧
    (complete_with_timeout_retry c3CompleteScript c3HeadScripts 3 60 100).1 =
      [Ev.completeCall 60, Ev.sleep 60, Ev.call "head_object",
       Ev.completeCall 120, Ev.sleep 120, Ev.call "head_object",
       Ev.completeCall 240] ∧
    (complete_with_timeout_retry c3CompleteScript c3HeadScripts 3 60 100).1[2]?
      = some (Ev.call "head_object") ∧
    (complete_with_timeout_retry c3CompleteScript c3HeadScripts 3 60 100).1[4]?
      = some (Ev.sleep 120) ∧
    (complete_with_timeout_retry c3CompleteScript c3HeadScripts 3 60 100).1[5]?
      = some (Ev.call "head_object") :=
  ⟨rfl, rfl, rfl, rfl, rfl, rfl⟩

/-- C3 amended: only a session-not-found reported by the completion call
skips the wait: the coordinator then polls immediately, the poll events
following the `completeCall` with no sleep in between.  A session-not-found
from the metadata-poll call receives no such treatment (see the
counterexample run, in which it is followed by a full wait). -/
theorem C3_amended_complete_missing_session_skips_wait
    (cs : Nat → Option PyErr) (hs : Nat → Nat → Except PyErr HeadResp)
    (mr es : Int) (a : Nat) (t : Int) (r : Nat) (e : PyErr)
    (he : is_no_such_upload_error e = true) (hcs : cs a = some e) :
    complete_go cs hs mr es a t (r + 1) =
      (let headRun := call_with_524_retry "head_object" (hs a) mr
       let confirmed := match headRun.2 with
         | Except.ok (some head) => head.contentLength == some es
         | _ => false
       if confirmed then (Ev.completeCall t :: headRun.1, Except.ok ())
       else if (a : Int) = mr then
         (Ev.completeCall t :: headRun.1, Except.error e)
       else
         (Ev.completeCall t :: headRun.1 ++
           (complete_go cs hs mr es (a + 1) (t * 2) r).1,
          (complete_go cs hs mr es (a + 1) (t * 2) r).2)) := by
  have he2 : is_client_timeout e = false ∧ is_client_error e = true := by
    cases e <;> simp_all [is_no_such_upload_error, is_client_timeout,
      is_client_error]
  rcases hr : (call_with_524_retry "head_object" (hs a) mr).2 with e2 | o
  · rw [complete_go, hcs]
    simp only
    rw [hr]
    simp [he2.1, he2.2, he]
  · rcases o with _ | hd
    · rw [complete_go, hcs]
      simp only
      rw [hr]
      simp [he2.1, he2.2, he]
    · rw [complete_go, hcs]
      simp only
      rw [hr]
      simp [he2.1, he2.2, he]

theorem C3_amended_complete_missing_session_skips_wait_witness :
    is_no_such_upload_error (PyErr.clientError none (some "NoSuchUpload") 9)
      = true ∧
    complete_go (fun _ => some (PyErr.clientError none (some "NoSuchUpload") 9))
        (fun _ _ => Except.ok ⟨some 0⟩) 3 100 1 60 3 =
      ([Ev.completeCall 60, Ev.call "head_object",
        Ev.completeCall 120, Ev.call "head_object",
        Ev.completeCall 240, Ev.call "head_object"],
       .error (PyErr.clientError none (some "NoSuchUpload") 9)) :=
  ⟨rfl,
    (C3_amended_complete_missing_session_skips_wait
      (fun _ => some (PyErr.clientError none (some "NoSuchUpload") 9))
      (fun _ _ => Except.ok ⟨some 0⟩) 3 100 1 60 2
      (PyErr.clientError none (some "NoSuchUpload") 9) rfl rfl).trans (by rfl)⟩

/-- C4: when every completion attempt up to `max_retries` fails with a
caught exception and no metadata poll ever reports the expected size, the
coordinator exhausts its attempts and re-raises the error captured on the
last failed complete attempt; with client timeouts on every attempt the
surfaced error is that timeout.  (The generic could-not-complete
`RuntimeError` is the fallback of the raise site for the case of no captured
error, which the raise site cannot reach, every path to it storing the
current exception first.) -/
theorem C4_exhaustion_raises_last_error (cs : Nat → Option PyErr)
    (hs : Nat → Nat → Except PyErr HeadResp) (mr t0 es : Int)
    (err : Nat → PyErr) (hmr : 1 ≤ mr)
    (hfail : ∀ i : Nat, 1 ≤ i → (i : Int) ≤ mr → cs i = some (err i) ∧
      (is_client_timeout (err i) || is_client_error (err i) ||
        is_botocore_error (err i)) = true)
    (hnoconf : ∀ i : Nat, 1 ≤ i → (i : Int) ≤ mr → ∀ hd : HeadResp,
      (call_with_524_retry "head_object" (hs i) mr).2 = .ok (some hd) →
      hd.contentLength ≠ some es) :
    (complete_with_timeout_retry cs hs mr t0 es).2 = .error (err mr.toNat) := by
  have hM : mr = ((mr.toNat : Nat) : Int) := (Int.toNat_of_nonneg (by omega)).symm
  have key := complete_go_exhaust cs hs mr es err mr.toNat hM
    (fun i hi1 hi2 => hfail i hi1 (by omega))
    (fun i hi1 hi2 => hnoconf i hi1 (by omega))
    (mr.toNat - 1) 1 t0 (le_refl 1) (by omega)
  rw [show mr.toNat - 1 + 1 = mr.toNat by omega] at key
  rw [complete_with_timeout_retry]
  exact key

theorem C4_exhaustion_raises_last_error_witness :
    (1 : Int) ≤ 2 ∧
    (complete_with_timeout_retry (fun _ => some (PyErr.readTimeoutError 0))
        (fun _ _ => Except.ok ⟨some 50⟩) 2 60 100).2 =
      .error (PyErr.readTimeoutError 0) :=
  ⟨by decide,
    C4_exhaustion_raises_last_error (fun _ => some (PyErr.readTimeoutError 0))
      (fun _ _ => Except.ok ⟨some 50⟩) 2 60 100
      (fun _ => PyErr.readTimeoutError 0) (by decide)
      (fun i h1 h2 => ⟨rfl, rfl⟩)
      (fun i h1 h2 hd heq => by
        have heq2 : (Except.ok (some (HeadResp.mk (some 50))) :
            Except PyErr (Option HeadResp)) = Except.ok (some hd) := heq
        injection heq2 with h3
        injection h3 with h4
        rw [← h4]
        decide)⟩

/-- C7: every `complete_multipart_upload` request of a driver run is
configured with read and connect timeouts
`max(60, 5 * ceil(file_size / 2^30)) * 2 ^ i` seconds, where `i` counts the
completion attempts already made: the per-attempt timeout starts at the
size-scaled 60-second floor and doubles after every failed attempt. -/
theorem C7_completion_timeout_schedule (S : StoreScripts) (fs ps mr : Int)
    (i : Nat) (x : Int)
    (h : (((upload S fs ps mr).trace.filterMap ev_complete_timeout))[i]?
      = some x) :
    x = max 60 (5 * py_ceil_div fs (1024 ^ 3)) * 2 ^ i := by
  have hx := upload_timeout_at S fs ps mr i x h
  rw [hx, completion_timeout, Int.mul_comm (py_ceil_div fs (1024 ^ 3)) 5]

theorem C7_completion_timeout_schedule_witness :
    ((upload c7Scripts 7 50 5).trace.filterMap ev_complete_timeout)[1]?
      = some 120 ∧
    (120 : Int) = max 60 (5 * py_ceil_div 7 (1024 ^ 3)) * 2 ^ 1 :=
  ⟨rfl, C7_completion_timeout_schedule c7Scripts 7 50 5 1 120 rfl⟩

/-- C6: the driver issues a completion request only when the `list_parts`
recount reported exactly `total_parts` part records (any trace containing a
completion request comes from a run whose recount was exact), and the run
returns success only when, in addition, the final `head_object` response
reports exactly the local file size; any other recount length or final size
leaves the run with a raised error. -/
theorem C6_recount_gates_completion_and_size_gates_success
    (S : StoreScripts) (fs ps mr : Int) :
    (∀ t, Ev.completeCall t ∈ (upload S fs ps mr).trace →
      ∃ seen, (call_with_524_retry "list_parts" S.listScript mr).2 =
        .ok (some seen) ∧ (seen.length : Int) = py_ceil_div fs ps) ∧
    ((upload S fs ps mr).result = .ok () →
      (∃ seen, (call_with_524_retry "list_parts" S.listScript mr).2 =
        .ok (some seen) ∧ (seen.length : Int) = py_ceil_div fs ps) ∧
      ∃ hd, (call_with_524_retry "head_object" S.finalHeadScript mr).2 =
        .ok (some hd) ∧ hd.contentLength = some fs) := by
  constructor
  · intro t ht
    unfold upload at ht
    dsimp only at ht
    split at ht
    · simp at ht
    · split at ht
      · exact absurd ht (not_completeCall_of_filterMap
          (call524_no_complete "create_multipart_upload" S.createScript mr) t)
      · exact absurd ht (not_completeCall_of_filterMap
          (call524_no_complete "create_multipart_upload" S.createScript mr) t)
      · rcases upload_body_main S fs ps mr with ⟨hmain, _⟩ | ⟨hseen, _, _⟩
        · exfalso
          have hnc := not_completeCall_of_filterMap hmain t
          have hcr := not_completeCall_of_filterMap
            (call524_no_complete "create_multipart_upload" S.createScript mr) t
          split at ht
          · rcases List.mem_append.mp ht with h | h
            · exact hcr h
            · exact hnc h
          · rcases List.mem_append.mp ht with h | h
            · rcases List.mem_append.mp h with h2 | h2
              · exact hcr h2
              · exact hnc h2
            · revert h
              split <;> simp
        · exact hseen
  · intro hok
    have hbody := upload_result_ok S fs ps mr hok
    rcases upload_body_main S fs ps mr with ⟨_, hne⟩ | ⟨hseen, _, himp⟩
    · exact absurd hbody hne
    · exact ⟨hseen, himp hbody⟩

theorem C6_recount_gates_completion_witness :
    (upload demoScripts 101 50 3).result = .ok () ∧
    ((∃ seen, (call_with_524_retry "list_parts" demoScripts.listScript 3).2 =
      .ok (some seen) ∧ (seen.length : Int) = py_ceil_div 101 50) ∧
    ∃ hd, (call_with_524_retry "head_object" demoScripts.finalHeadScript 3).2 =
      .ok (some hd) ∧ hd.contentLength = some 101) :=
  ⟨rfl,
    (C6_recount_gates_completion_and_size_gates_success
      demoScripts 101 50 3).2 rfl⟩

/-- C8: once the multipart session exists (the run ends with a stored
`upload_id`), any failing run reports that session identifier in its trace
and re-raises the error it failed with, and no run of the driver ever issues
an `abort_multipart_upload` request; the stored `upload_id`, set when the
session is created, is returned unchanged, left intact for external
resumption. -/
theorem C8_failure_reports_session_never_aborts (S : StoreScripts)
    (fs ps mr : Int) (uid : String) (e : PyErr)
    (hid : (upload S fs ps mr).upload_id = some uid)
    (hfail : (upload S fs ps mr).result = .error e) (huid : uid ≠ "") :
    Ev.reportUploadId uid ∈ (upload S fs ps mr).trace ∧
    Ev.call "abort_multipart_upload" ∉ (upload S fs ps mr).trace ∧
    (call_with_524_retry "create_multipart_upload" S.createScript mr).2 =
      .ok (some uid) := by
  refine ⟨?_, upload_not_abort S fs ps mr, ?_⟩
  · by_cases hps : ps = 0
    · unfold upload at hid
      rw [if_pos hps] at hid
      exact absurd hid (by simp)
    · rcases hcr : (call_with_524_retry "create_multipart_upload"
          S.createScript mr).2 with e0 | ouid
      · unfold upload at hid
        rw [if_neg hps] at hid
        dsimp only at hid
        rw [hcr] at hid
        exact absurd hid (by simp)
      · rcases ouid with _ | uid0
        · unfold upload at hid
          rw [if_neg hps] at hid
          dsimp only at hid
          rw [hcr] at hid
          exact absurd hid (by simp)
        · rcases hb : (upload_body S fs ps mr).2 with e1 | u
          · unfold upload at hid hfail ⊢
            rw [if_neg hps] at hid hfail ⊢
            dsimp only at hid hfail ⊢
            rw [hcr] at hid hfail ⊢
            dsimp only at hid hfail ⊢
            rw [hb] at hid hfail ⊢
            dsimp only at hid hfail ⊢
            have huid0 : uid0 = uid := by
              injection hid
            subst huid0
            rw [if_neg huid]
            simp [List.mem_append]
          · unfold upload at hfail
            rw [if_neg hps] at hfail
            dsimp only at hfail
            rw [hcr] at hfail
            dsimp only at hfail
            rw [hb] at hfail
            dsimp only at hfail
            exact absurd hfail (by simp)
  · by_cases hps : ps = 0
    · unfold upload at hid
      rw [if_pos hps] at hid
      exact absurd hid (by simp)
    · unfold upload at hid
      rw [if_neg hps] at hid
      dsimp only at hid
      rcases hcr : (call_with_524_retry "create_multipart_upload"
          S.createScript mr).2 with e0 | ouid
      · rw [hcr] at hid
        dsimp only at hid
        exact absurd hid (by simp)
      · rcases ouid with _ | uid0
        · rw [hcr] at hid
          dsimp only at hid
          exact absurd hid (by simp)
        · rw [hcr] at hid
          rcases hb : (upload_body S fs ps mr).2 with e1 | u <;>
            rw [hb] at hid <;>
            dsimp only at hid <;>
            have huid0 : uid0 = uid := by injection hid
          · rw [← huid0]
          · rw [← huid0]

theorem C8_failure_reports_session_never_aborts_witness :
    (upload c8Scripts 100 50 2).upload_id = some "U1" ∧
    (upload c8Scripts 100 50 2).result =
      .error (.runtimeError "Server reported insufficient storage") ∧
    ("U1" : String) ≠ "" ∧
    Ev.reportUploadId "U1" ∈ (upload c8Scripts 100 50 2).trace ∧
    Ev.call "abort_multipart_upload" ∉ (upload c8Scripts 100 50 2).trace := by
  have h := C8_failure_reports_session_never_aborts c8Scripts 100 50 2 "U1"
    (.runtimeError "Server reported insufficient storage") rfl rfl (by decide)
  exact ⟨rfl, rfl, by decide, h.1, h.2.1⟩

/-- C9 counterexample: with `part_size = -1` and a 100-byte file the program
does not treat the input as a configuration error caught at planning: the
run begins with the `create_multipart_upload` store call (trace index 0),
plans zero parts, and only fails afterwards, at the recount check, with a
generic runtime error — not with any planning-time error, and after store
calls were made. -/
theorem C9_counterexample :
    upload c9Scripts 100 (-1) 3 =
      ⟨[Ev.call "create_multipart_upload", Ev.call "list_parts",
        Ev.reportUploadId "UP1"],
       .error (.runtimeError "Expected total_parts parts but saw len(seen)"),
       some "UP1"⟩ ∧
    (upload c9Scripts 100 (-1) 3).trace[0]?
      = some (Ev.call "create_multipart_upload") ∧
    (upload c9Scripts 100 (-1) 3).result ≠ .error .zeroDivisionError :=
  ⟨rfl, rfl, by decide⟩

/-- C9 amended: only `part_size = 0` fails during planning before any store
call — with a `ZeroDivisionError` from computing `total_parts`, raised once
and never retried, leaving an empty trace.  A negative `part_size` is not
rejected: the plan degenerates to zero chunks and the driver proceeds into
the store-call phases, its trace beginning with the
`create_multipart_upload` phase. -/
theorem C9_amended_part_size_validation (S : StoreScripts) (fs ps mr : Int)
    (_hps : ps ≤ 0) (hfs : 0 ≤ fs) :
    (ps = 0 → upload S fs ps mr = ⟨[], .error .zeroDivisionError, none⟩) ∧
    (ps < 0 → chunk_plan fs ps = [] ∧
      ∃ rest, (upload S fs ps mr).trace =
        (call_with_524_retry "create_multipart_upload" S.createScript mr).1
          ++ rest) := by
  constructor
  · intro h0
    unfold upload
    rw [if_pos h0]
  · intro hneg
    have hplan : chunk_plan fs ps = [] := by
      unfold chunk_plan
      have hle := py_ceil_div_nonpos hfs hneg
      rw [show (py_ceil_div fs ps).toNat = 0 by omega]
      rfl
    refine ⟨hplan, ?_⟩
    unfold upload
    rw [if_neg (by omega)]
    dsimp only
    rcases hcr : (call_with_524_retry "create_multipart_upload"
        S.createScript mr).2 with e0 | o
    · exact ⟨[], by simp⟩
    · rcases o with _ | uid
      · exact ⟨[], by simp⟩
      · rcases hb : (upload_body S fs ps mr).2 with e1 | u
        · refine ⟨(upload_body S fs ps mr).1 ++
            (if uid = "" then [] else [Ev.reportUploadId uid]), ?_⟩
          dsimp only
          rw [List.append_assoc]
        · exact ⟨(upload_body S fs ps mr).1, rfl⟩

theorem C9_amended_part_size_validation_witness :
    ((-1 : Int) ≤ 0) ∧ ((0 : Int) ≤ 100) ∧
    (chunk_plan 100 (-1) = [] ∧
      ∃ rest, (upload c9Scripts 100 (-1) 3).trace =
        (call_with_524_retry "create_multipart_upload"
          c9Scripts.createScript 3).1 ++ rest) :=
  ⟨by decide, by decide,
    (C9_amended_part_size_validation c9Scripts 100 (-1) 3
      (by decide) (by decide)).2 (by decide)⟩

end UploadLargeFile
